import Mathlib

/-!
Shallow embedding of the inventory reconciliation program.

The program keeps a catalog of products (`Producto`) and applies a stream
of transactions (`Transaccion`) to it: sales ("VENTA") subtract stock when
there is enough of it, purchases ("COMPRA") and returns ("DEVOLUCION") add
stock unconditionally, anything else is reported as an unknown kind.
Transactions whose product identifier is not in the catalog are reported
and skipped.  A side report lists the products whose stock is strictly
below a threshold.

The Go engine `procesarTransacciones` mutates the product slice in place
and returns the list of error strings; here the state is passed
explicitly, so the embedded engine returns the pair
(updated catalog, error list).
-/

set_option maxHeartbeats 1000000
set_option linter.unusedVariables false

/-- Catalog entry, from the Go struct `Producto`: identifier, display name,
category, unit price and integer stock. -/
structure Producto where
  ID : String
  Nombre : String
  Categoria : String
  Precio : Float
  Stock : Int

/-- The zero value of `Producto`; it stands in for Go's `productos[pos]`
indexing default (which in the program is never needed, since every index
position stored in the map is in range). -/
def productoCero : Producto :=
  { ID := "", Nombre := "", Categoria := "", Precio := 0.0, Stock := 0 }

/-- Transaction record, from the Go struct `Transaccion`: kind, target
product identifier, quantity and date string. -/
structure Transaccion where
  Tipo : String
  IDProducto : String
  Cantidad : Int
  Fecha : String

/-- Error text for a transaction whose product identifier is not in the
catalog (the first `errores = append(...)` in `procesarTransacciones`). -/
def msgNoEncontrado (t : Transaccion) : String :=
  "ERROR: Producto " ++ t.IDProducto ++ " no encontrado en transacción de tipo " ++
    t.Tipo ++ " (fecha: " ++ t.Fecha ++ ")"

/-- Error text for a sale with insufficient stock. -/
def msgStockInsuficiente (p : Producto) (t : Transaccion) : String :=
  "ERROR: Stock insuficiente para venta. Producto: " ++ p.ID ++
    ", Stock actual: " ++ toString p.Stock ++
    ", Cantidad solicitada: " ++ toString t.Cantidad ++
    " (fecha: " ++ t.Fecha ++ ")"

/-- Error text for an unrecognized transaction kind. -/
def msgTipoDesconocido (t : Transaccion) : String :=
  "ERROR: Tipo de transacción desconocido \x27" ++ t.Tipo ++
    "\x27 para producto " ++ t.IDProducto ++ " (fecha: " ++ t.Fecha ++ ")"

/-- The identifier index of `procesarTransacciones`: the Go loop
`for i, p := range productos { index[p.ID] = i }` inserts every position
in order, so a lookup returns the position written by the last product
with the looked-up identifier.  Per key this is a left fold in which a
later match overwrites an earlier one. -/
def buildIndex (productos : List Producto) : String → Option Nat :=
  fun k =>
    productos.enum.foldl (fun acc ip => if ip.2.ID = k then some ip.1 else acc) none

/-- Body of the transaction loop of `procesarTransacciones`, acting on the
state (catalog, accumulated errors).  `index` is the identifier index
built once before the loop. -/
def aplicarTransaccion (index : String → Option Nat)
    (st : List Producto × List String) (t : Transaccion) :
    List Producto × List String :=
  match index t.IDProducto with
  | none => (st.1, st.2 ++ [msgNoEncontrado t])
  | some pos =>
    if t.Tipo = "VENTA" then
      if (st.1.getD pos productoCero).Stock < t.Cantidad then
        (st.1, st.2 ++ [msgStockInsuficiente (st.1.getD pos productoCero) t])
      else
        (st.1.set pos
          { st.1.getD pos productoCero with
              Stock := (st.1.getD pos productoCero).Stock - t.Cantidad },
         st.2)
    else if t.Tipo = "COMPRA" then
      (st.1.set pos
        { st.1.getD pos productoCero with
            Stock := (st.1.getD pos productoCero).Stock + t.Cantidad },
       st.2)
    else if t.Tipo = "DEVOLUCION" then
      (st.1.set pos
        { st.1.getD pos productoCero with
            Stock := (st.1.getD pos productoCero).Stock + t.Cantidad },
       st.2)
    else
      (st.1, st.2 ++ [msgTipoDesconocido t])

/-- The reconciliation engine `procesarTransacciones`: build the index,
then apply every transaction in input order.  Returns the updated catalog
together with the accumulated error strings. -/
def procesarTransacciones (productos : List Producto)
    (transacciones : List Transaccion) : List Producto × List String :=
  transacciones.foldl (aplicarTransaccion (buildIndex productos)) (productos, [])

/-- One product line of the low-stock report
(`fmt.Fprintf(f, "ID: %s | %s | Stock actual: %d unidades\n", ...)`). -/
def lineaBajoStock (p : Producto) : String :=
  "ID: " ++ p.ID ++ " | " ++ p.Nombre ++ " | Stock actual: " ++
    toString p.Stock ++ " unidades"

/-- The content of the low-stock report written by
`generarReporteBajoStock`: two header lines, one line per product whose
stock is strictly below the threshold (counting them as it goes), and a
trailing count line. -/
def generarReporteBajoStock (productos : List Producto) (limite : Int) :
    List String :=
  let r := productos.foldl
    (fun acc p =>
      if p.Stock < limite then (acc.1 ++ [lineaBajoStock p], acc.2 + 1) else acc)
    (([] : List String), (0 : Nat))
  ["ALERTA: PRODUCTOS CON BAJO STOCK", "================================"] ++
    r.1 ++ ["Total de productos con bajo stock: " ++ toString r.2]

/-- Position of the last product with a given identifier, counting from
`n`; the reference description of what the Go map lookup returns. -/
def posUltimaDesde (n : Nat) (ps : List Producto) (k : String) : Option Nat :=
  match ps with
  | [] => none
  | p :: rest =>
    match posUltimaDesde (n + 1) rest k with
    | some i => some i
    | none => if p.ID = k then some n else none

/-- Position of the last occurrence of identifier `k` in the catalog. -/
def posUltima (ps : List Producto) (k : String) : Option Nat :=
  posUltimaDesde 0 ps k

/-- Position `i` of the catalog is shadowed: some later position carries
the same identifier. -/
def hayPosterior (ps : List Producto) (i : Nat) : Prop :=
  ∃ j ∈ List.range ps.length,
    i < j ∧ (ps.getD j productoCero).ID = (ps.getD i productoCero).ID

/-- The four fields of a product other than its stock agree. -/
def mismosDatos (p q : Producto) : Prop :=
  p.ID = q.ID ∧ p.Nombre = q.Nombre ∧ p.Categoria = q.Categoria ∧
    p.Precio = q.Precio

/-- Spec-side failure predicate: a transaction fails exactly when its
identifier is not in the index, or it is a sale with insufficient stock,
or its kind is none of the three recognized ones. -/
def fallaTransaccion (index : String → Option Nat) (ps : List Producto)
    (t : Transaccion) : Bool :=
  match index t.IDProducto with
  | none => true
  | some pos =>
    if t.Tipo = "VENTA" then decide ((ps.getD pos productoCero).Stock < t.Cantidad)
    else if t.Tipo = "COMPRA" then false
    else if t.Tipo = "DEVOLUCION" then false
    else true

/-- Number of transactions of the stream that fail, evaluated against the
catalog state current when each one is processed. -/
def cuentaFallos (index : String → Option Nat) :
    List Producto → List Transaccion → Nat
  | _, [] => 0
  | ps, t :: ts =>
    (if fallaTransaccion index ps t then 1 else 0) +
      cuentaFallos index (aplicarTransaccion index (ps, []) t).1 ts

theorem mismosDatos_refl (p : Producto) : mismosDatos p p :=
  ⟨rfl, rfl, rfl, rfl⟩

/-- A step only appends to the error list: processing from an arbitrary
error accumulator equals processing from the empty one with the old
errors put in front. -/
theorem aplicar_errs_acc (idx : String → Option Nat)
    (st : List Producto × List String) (t : Transaccion) :
    aplicarTransaccion idx st t =
      ((aplicarTransaccion idx (st.1, []) t).1,
       st.2 ++ (aplicarTransaccion idx (st.1, []) t).2) := by
  unfold aplicarTransaccion
  cases h : idx t.IDProducto with
  | none => simp
  | some pos =>
    dsimp only
    split_ifs <;> simp

/-- Error accumulation over the whole fold. -/
theorem fold_errs (idx : String → Option Nat) (ts : List Transaccion)
    (st : List Producto × List String) :
    ts.foldl (aplicarTransaccion idx) st =
      ((ts.foldl (aplicarTransaccion idx) (st.1, [])).1,
       st.2 ++ (ts.foldl (aplicarTransaccion idx) (st.1, [])).2) := by
  induction ts generalizing st with
  | nil => simp
  | cons t ts ih =>
    simp only [List.foldl_cons]
    rw [ih (aplicarTransaccion idx st t),
      ih (aplicarTransaccion idx (st.1, []) t)]
    rw [aplicar_errs_acc idx st t]
    simp

theorem aplicar_no_encontrado (idx : String → Option Nat)
    (st : List Producto × List String) (t : Transaccion)
    (h : idx t.IDProducto = none) :
    aplicarTransaccion idx st t = (st.1, st.2 ++ [msgNoEncontrado t]) := by
  unfold aplicarTransaccion
  rw [h]

theorem aplicar_venta_insuf (idx : String → Option Nat)
    (st : List Producto × List String) (t : Transaccion) (pos : Nat)
    (hpos : idx t.IDProducto = some pos) (hv : t.Tipo = "VENTA")
    (hs : (st.1.getD pos productoCero).Stock < t.Cantidad) :
    aplicarTransaccion idx st t =
      (st.1, st.2 ++ [msgStockInsuficiente (st.1.getD pos productoCero) t]) := by
  unfold aplicarTransaccion
  rw [hpos]
  simp only [List.getD_eq_getElem?_getD] at hs
  simp [hv, hs]

theorem aplicar_venta_ok (idx : String → Option Nat)
    (st : List Producto × List String) (t : Transaccion) (pos : Nat)
    (hpos : idx t.IDProducto = some pos) (hv : t.Tipo = "VENTA")
    (hs : ¬ (st.1.getD pos productoCero).Stock < t.Cantidad) :
    aplicarTransaccion idx st t =
      (st.1.set pos
        { st.1.getD pos productoCero with
            Stock := (st.1.getD pos productoCero).Stock - t.Cantidad },
       st.2) := by
  unfold aplicarTransaccion
  rw [hpos]
  simp only [List.getD_eq_getElem?_getD] at hs
  simp [hv, hs]

theorem aplicar_suma (idx : String → Option Nat)
    (st : List Producto × List String) (t : Transaccion) (pos : Nat)
    (hpos : idx t.IDProducto = some pos)
    (hk : t.Tipo = "COMPRA" ∨ t.Tipo = "DEVOLUCION") :
    aplicarTransaccion idx st t =
      (st.1.set pos
        { st.1.getD pos productoCero with
            Stock := (st.1.getD pos productoCero).Stock + t.Cantidad },
       st.2) := by
  unfold aplicarTransaccion
  rw [hpos]
  rcases hk with hk | hk <;> simp [hk]

theorem aplicar_desconocido (idx : String → Option Nat)
    (st : List Producto × List String) (t : Transaccion) (pos : Nat)
    (hpos : idx t.IDProducto = some pos) (h1 : t.Tipo ≠ "VENTA")
    (h2 : t.Tipo ≠ "COMPRA") (h3 : t.Tipo ≠ "DEVOLUCION") :
    aplicarTransaccion idx st t = (st.1, st.2 ++ [msgTipoDesconocido t]) := by
  unfold aplicarTransaccion
  rw [hpos]
  simp [h1, h2, h3]

theorem aplicar_length (idx : String → Option Nat)
    (st : List Producto × List String) (t : Transaccion) :
    (aplicarTransaccion idx st t).1.length = st.1.length := by
  unfold aplicarTransaccion
  cases idx t.IDProducto with
  | none => rfl
  | some pos =>
    dsimp only
    split_ifs <;> simp

theorem aplicar_errlen (idx : String → Option Nat) (ps : List Producto)
    (errs : List String) (t : Transaccion) :
    ((aplicarTransaccion idx (ps, errs) t).2).length =
      errs.length + (if fallaTransaccion idx ps t then 1 else 0) := by
  unfold aplicarTransaccion fallaTransaccion
  cases h : idx t.IDProducto with
  | none => simp
  | some pos =>
    dsimp only
    simp only [List.getD_eq_getElem?_getD]
    split_ifs <;> simp_all
    all_goals omega

/-- Writing an updated stock at position `pos` changes no field other than
the stock, at any position of the catalog. -/
theorem getD_set_datos (l : List Producto) (pos i : Nat) (s : Int) :
    mismosDatos
      ((l.set pos { l.getD pos productoCero with Stock := s }).getD i productoCero)
      (l.getD i productoCero) := by
  by_cases hip : pos = i
  · subst hip
    by_cases hlt : pos < l.length
    · simp only [List.getD_eq_getElem?_getD, List.getElem?_set_self hlt,
        Option.getD_some]
      exact ⟨rfl, rfl, rfl, rfl⟩
    · rw [List.set_eq_of_length_le (Nat.le_of_not_lt hlt)]
      exact mismosDatos_refl _
  · simp only [List.getD_eq_getElem?_getD, List.getElem?_set_ne hip]
    exact mismosDatos_refl _

/-- One engine step never changes identifier, name, category or price of
any catalog position. -/
theorem aplicar_datos (idx : String → Option Nat)
    (st : List Producto × List String) (t : Transaccion) (i : Nat) :
    mismosDatos ((aplicarTransaccion idx st t).1.getD i productoCero)
      (st.1.getD i productoCero) := by
  unfold aplicarTransaccion
  cases idx t.IDProducto with
  | none => exact mismosDatos_refl _
  | some pos =>
    dsimp only
    split_ifs
    · exact mismosDatos_refl _
    · exact getD_set_datos st.1 pos i _
    · exact getD_set_datos st.1 pos i _
    · exact getD_set_datos st.1 pos i _
    · exact mismosDatos_refl _

/-- A step leaves untouched every position the index can not name. -/
theorem aplicar_getD_ne (idx : String → Option Nat)
    (st : List Producto × List String) (t : Transaccion) (i : Nat)
    (h : ∀ pos, idx t.IDProducto = some pos → pos ≠ i) :
    (aplicarTransaccion idx st t).1.getD i productoCero =
      st.1.getD i productoCero := by
  unfold aplicarTransaccion
  cases hpos : idx t.IDProducto with
  | none => rfl
  | some pos =>
    have hne : pos ≠ i := h pos hpos
    dsimp only
    split_ifs <;>
      simp [List.getD_eq_getElem?_getD, List.getElem?_set_ne hne]

/-- The per-key fold that embeds the Go index map agrees with the
recursive search for a last occurrence. -/
theorem buildIndex_foldl (k : String) (ps : List Producto) :
    ∀ (n : Nat) (acc : Option Nat),
      (List.enumFrom n ps).foldl
          (fun acc ip => if ip.2.ID = k then some ip.1 else acc) acc =
        match posUltimaDesde n ps k with
        | some i => some i
        | none => acc := by
  induction ps with
  | nil => intro n acc; rfl
  | cons p rest ih =>
    intro n acc
    rw [List.enumFrom_cons, List.foldl_cons, ih (n + 1)]
    cases hrest : posUltimaDesde (n + 1) rest k with
    | some i => simp [posUltimaDesde, hrest]
    | none =>
      simp only [posUltimaDesde, hrest]
      split_ifs <;> rfl

/-- The index lookup returns the position of the last occurrence of the
identifier in the catalog. -/
theorem buildIndex_eq_posUltima (ps : List Producto) (k : String) :
    buildIndex ps k = posUltima ps k := by
  unfold buildIndex posUltima
  rw [List.enum_eq_enumFrom, buildIndex_foldl k ps 0 none]
  cases posUltimaDesde 0 ps k <;> rfl

theorem posUltimaDesde_none (k : String) (ps : List Producto) :
    ∀ (n : Nat), posUltimaDesde n ps k = none →
      ∀ j, j < ps.length → (ps.getD j productoCero).ID ≠ k := by
  induction ps with
  | nil => intro n _ j hj; simp at hj
  | cons p rest ih =>
    intro n h j hj
    unfold posUltimaDesde at h
    cases hrest : posUltimaDesde (n + 1) rest k with
    | some i => rw [hrest] at h; exact Option.noConfusion h
    | none =>
      rw [hrest] at h
      dsimp only at h
      by_cases hid : p.ID = k
      · rw [if_pos hid] at h
        exact Option.noConfusion h
      · cases j with
        | zero => simpa using hid
        | succ j2 =>
          have hj2 : j2 < rest.length := by simpa using hj
          simpa using ih (n + 1) hrest j2 hj2

theorem posUltimaDesde_some (k : String) (ps : List Producto) :
    ∀ (n i : Nat), posUltimaDesde n ps k = some i →
      n ≤ i ∧ i - n < ps.length ∧ (ps.getD (i - n) productoCero).ID = k ∧
        ∀ j, i - n < j → j < ps.length → (ps.getD j productoCero).ID ≠ k := by
  induction ps with
  | nil => intro n i h; exact Option.noConfusion h
  | cons p rest ih =>
    intro n i h
    unfold posUltimaDesde at h
    cases hrest : posUltimaDesde (n + 1) rest k with
    | some i0 =>
      rw [hrest] at h
      dsimp only at h
      cases h
      obtain ⟨hle, hlen, hid, hlast⟩ := ih (n + 1) i hrest
      have hin : i - n = (i - (n + 1)) + 1 := by omega
      refine ⟨by omega, by simp; omega, ?_, ?_⟩
      · rw [hin]
        simpa using hid
      · intro j hjgt hjlt
        rw [hin] at hjgt
        cases j with
        | zero => omega
        | succ j2 =>
          have : i - (n + 1) < j2 := by omega
          have hj2 : j2 < rest.length := by simpa using hjlt
          simpa using hlast j2 this hj2
    | none =>
      rw [hrest] at h
      dsimp only at h
      by_cases hid : p.ID = k
      · rw [if_pos hid] at h
        cases h
        refine ⟨Nat.le_refl _, by simp, ?_, ?_⟩
        · simpa using hid
        · intro j hjgt hjlt
          cases j with
          | zero => omega
          | succ j2 =>
            have hj2 : j2 < rest.length := by simpa using hjlt
            simpa using posUltimaDesde_none k rest (n + 1) hrest j2 hj2
      · rw [if_neg hid] at h
        exact Option.noConfusion h

/-- What a successful index lookup guarantees: the position is in range,
it carries the looked-up identifier, and no later position does. -/
theorem buildIndex_some (ps : List Producto) (k : String) (pos : Nat)
    (h : buildIndex ps k = some pos) :
    pos < ps.length ∧ (ps.getD pos productoCero).ID = k ∧
      ∀ j, pos < j → j < ps.length → (ps.getD j productoCero).ID ≠ k := by
  rw [buildIndex_eq_posUltima] at h
  unfold posUltima at h
  have h2 := posUltimaDesde_some k ps 0 pos h
  simpa using h2

/-- Identifiers absent from the catalog are exactly those the index does
not know. -/
theorem buildIndex_eq_none_iff (ps : List Producto) (k : String) :
    buildIndex ps k = none ↔ ∀ p ∈ ps, p.ID ≠ k := by
  constructor
  · intro h p hp hid
    rw [buildIndex_eq_posUltima] at h
    unfold posUltima at h
    obtain ⟨j, hj, hpj⟩ := List.mem_iff_getElem.mp hp
    have := posUltimaDesde_none k ps 0 h j hj
    rw [List.getD_eq_getElem _ _ hj, hpj] at this
    exact this hid
  · intro hall
    cases hidx : buildIndex ps k with
    | none => rfl
    | some pos =>
      obtain ⟨hlt, hid, _⟩ := buildIndex_some ps k pos hidx
      have hmem : ps.getD pos productoCero ∈ ps := by
        rw [List.getD_eq_getElem _ _ hlt]
        exact List.getElem_mem hlt
      exact absurd hid (hall _ hmem)

theorem mismosDatos_trans (p q r : Producto) (h1 : mismosDatos p q)
    (h2 : mismosDatos q r) : mismosDatos p r := by
  obtain ⟨a1, b1, c1, d1⟩ := h1
  obtain ⟨a2, b2, c2, d2⟩ := h2
  exact ⟨a1.trans a2, b1.trans b2, c1.trans c2, d1.trans d2⟩

theorem getD_set_self (l : List Producto) (n : Nat) (a : Producto)
    (h : n < l.length) : (l.set n a).getD n productoCero = a := by
  simp [List.getD_eq_getElem?_getD, List.getElem?_set_self h]

/-- The fold never changes the catalog's length. -/
theorem fold_length (idx : String → Option Nat) (ts : List Transaccion) :
    ∀ st : List Producto × List String,
      ((ts.foldl (aplicarTransaccion idx) st).1).length = st.1.length := by
  induction ts with
  | nil => intro st; rfl
  | cons t ts ih =>
    intro st
    rw [List.foldl_cons, ih (aplicarTransaccion idx st t), aplicar_length]

/-- The fold never changes identifier, name, category or price at any
position. -/
theorem fold_datos (idx : String → Option Nat) (ts : List Transaccion) :
    ∀ (st : List Producto × List String) (i : Nat),
      mismosDatos ((ts.foldl (aplicarTransaccion idx) st).1.getD i productoCero)
        (st.1.getD i productoCero) := by
  induction ts with
  | nil => intro st i; exact mismosDatos_refl _
  | cons t ts ih =>
    intro st i
    rw [List.foldl_cons]
    exact mismosDatos_trans _ _ _ (ih (aplicarTransaccion idx st t) i)
      (aplicar_datos idx st t i)

theorem cuentaFallos_cons (idx : String → Option Nat) (ps : List Producto)
    (t : Transaccion) (ts : List Transaccion) :
    cuentaFallos idx ps (t :: ts) =
      (if fallaTransaccion idx ps t then 1 else 0) +
        cuentaFallos idx (aplicarTransaccion idx (ps, []) t).1 ts := rfl

/-- The number of errors of a run is the number of failing transactions,
counted against the catalog state current at each one. -/
theorem fold_errlen (idx : String → Option Nat) (ts : List Transaccion) :
    ∀ ps : List Producto,
      ((ts.foldl (aplicarTransaccion idx) (ps, [])).2).length =
        cuentaFallos idx ps ts := by
  induction ts with
  | nil => intro ps; rfl
  | cons t ts ih =>
    intro ps
    rw [List.foldl_cons, fold_errs idx ts (aplicarTransaccion idx (ps, []) t)]
    dsimp only
    rw [List.length_append, ih (aplicarTransaccion idx (ps, []) t).1]
    have h1 : ((aplicarTransaccion idx (ps, []) t).2).length =
        (if fallaTransaccion idx ps t then 1 else 0) := by
      simpa using aplicar_errlen idx ps [] t
    rw [h1, cuentaFallos_cons]

/-- A position the index can never name is untouched by the whole run. -/
theorem fold_getD_ne (idx : String → Option Nat) (ts : List Transaccion)
    (i : Nat) (h : ∀ s pos, idx s = some pos → pos ≠ i) :
    ∀ st : List Producto × List String,
      (ts.foldl (aplicarTransaccion idx) st).1.getD i productoCero =
        st.1.getD i productoCero := by
  induction ts with
  | nil => intro st; rfl
  | cons t ts ih =>
    intro st
    rw [List.foldl_cons, ih (aplicarTransaccion idx st t),
      aplicar_getD_ne idx st t i (h t.IDProducto)]

/-- Characterization of the report loop: the lines are the below-threshold
products in catalog order and the counter counts them. -/
theorem reporte_foldl (limite : Int) (ps : List Producto) :
    ∀ (ls : List String) (n : Nat),
      ps.foldl
          (fun acc p =>
            if p.Stock < limite then (acc.1 ++ [lineaBajoStock p], acc.2 + 1)
            else acc)
          (ls, n) =
        (ls ++ (ps.filter (fun p => decide (p.Stock < limite))).map lineaBajoStock,
         n + (ps.filter (fun p => decide (p.Stock < limite))).length) := by
  induction ps with
  | nil => intro ls n; simp
  | cons p rest ih =>
    intro ls n
    rw [List.foldl_cons]
    by_cases h : p.Stock < limite
    · rw [if_pos h, ih]
      simp [List.filter_cons, h]
      omega
    · rw [if_neg h, ih]
      simp [List.filter_cons, h]

/-! Concrete data for the instantiated statements. -/

def prodA : Producto :=
  { ID := "A1", Nombre := "Teclado", Categoria := "Informatica",
    Precio := 1.5, Stock := 5 }

def prodB : Producto :=
  { ID := "B1", Nombre := "Raton", Categoria := "Informatica",
    Precio := 2.5, Stock := 2 }

def prodDup : Producto :=
  { ID := "A1", Nombre := "Duplicado", Categoria := "Otra",
    Precio := 3.0, Stock := 7 }

def trVenta : Transaccion :=
  { Tipo := "VENTA", IDProducto := "A1", Cantidad := 5, Fecha := "2024-01-01" }

def trCompra : Transaccion :=
  { Tipo := "COMPRA", IDProducto := "A1", Cantidad := 3, Fecha := "2024-01-02" }

def trCompraNeg : Transaccion :=
  { Tipo := "COMPRA", IDProducto := "B1", Cantidad := -5, Fecha := "2024-01-03" }

def trAjuste : Transaccion :=
  { Tipo := "AJUSTE", IDProducto := "A1", Cantidad := 2, Fecha := "2024-01-04" }

def trNoExiste : Transaccion :=
  { Tipo := "VENTA", IDProducto := "ZZ", Cantidad := 1, Fecha := "2024-01-05" }

/-- C1: for a sale whose target identifier is in the catalog, if the
current stock is strictly below the requested quantity the engine emits
exactly the insufficient-stock error (naming product id, current stock,
requested quantity and date) and leaves the catalog unchanged; otherwise
(including quantity equal to stock) it emits no error and the product's
stock becomes old stock minus quantity. -/
theorem venta_correcta (ps : List Producto) (t : Transaccion) (pos : Nat)
    (hpos : buildIndex ps t.IDProducto = some pos) (hv : t.Tipo = "VENTA") :
    ((ps.getD pos productoCero).Stock < t.Cantidad →
        procesarTransacciones ps [t] =
          (ps, [msgStockInsuficiente (ps.getD pos productoCero) t])) ∧
      (t.Cantidad ≤ (ps.getD pos productoCero).Stock →
        procesarTransacciones ps [t] =
          (ps.set pos
            { ps.getD pos productoCero with
                Stock := (ps.getD pos productoCero).Stock - t.Cantidad },
           [])) := by
  constructor
  · intro hs
    unfold procesarTransacciones
    rw [List.foldl_cons, List.foldl_nil,
      aplicar_venta_insuf (buildIndex ps) (ps, []) t pos hpos hv hs]
    simp
  · intro hs
    have hs2 : ¬ (ps.getD pos productoCero).Stock < t.Cantidad := not_lt.mpr hs
    unfold procesarTransacciones
    rw [List.foldl_cons, List.foldl_nil,
      aplicar_venta_ok (buildIndex ps) (ps, []) t pos hpos hv hs2]

theorem venta_correcta_witness :
    buildIndex [prodA] trVenta.IDProducto = some 0 ∧
      trVenta.Cantidad ≤ ([prodA].getD 0 productoCero).Stock ∧
      procesarTransacciones [prodA] [trVenta] =
        ([prodA].set 0
          { [prodA].getD 0 productoCero with
              Stock := ([prodA].getD 0 productoCero).Stock - trVenta.Cantidad },
         []) :=
  ⟨by decide, by decide,
    (venta_correcta [prodA] trVenta 0 (by decide) rfl).2 (by decide)⟩

/-- C2: after any applied sale — a "VENTA" processed at a moment when the
target's current stock is at least the requested quantity — the target
product's stock is non-negative.  The catalog is assumed to satisfy the
unique-identifier precondition. -/
theorem venta_no_negativa (ps : List Producto) (ts1 : List Transaccion)
    (t : Transaccion) (pos : Nat)
    (hu : (ps.map Producto.ID).Nodup) (hv : t.Tipo = "VENTA")
    (hpos : buildIndex ps t.IDProducto = some pos)
    (happ : ¬ ((procesarTransacciones ps ts1).1.getD pos productoCero).Stock <
        t.Cantidad) :
    0 ≤ (((procesarTransacciones ps (ts1 ++ [t])).1).getD pos productoCero).Stock := by
  have hplt : pos < ps.length := (buildIndex_some ps t.IDProducto pos hpos).1
  unfold procesarTransacciones at happ ⊢
  rw [List.foldl_append, List.foldl_cons, List.foldl_nil,
    aplicar_venta_ok (buildIndex ps)
      (ts1.foldl (aplicarTransaccion (buildIndex ps)) (ps, [])) t pos hpos hv happ]
  rw [getD_set_self _ pos _ (by rw [fold_length _ ts1 (ps, [])]; exact hplt)]
  show (0 : Int) ≤
    ((ts1.foldl (aplicarTransaccion (buildIndex ps)) (ps, [])).1.getD pos
      productoCero).Stock - t.Cantidad
  omega

theorem venta_no_negativa_witness :
    ([prodA].map Producto.ID).Nodup ∧
      0 ≤ (((procesarTransacciones [prodA] ([] ++ [trVenta])).1).getD 0
        productoCero).Stock :=
  ⟨by decide,
    venta_no_negativa [prodA] [] trVenta 0 (by decide) rfl (by decide) (by decide)⟩

/-- C3: reconciliation never adds or removes catalog entries and never
changes a product's identifier, name, category or price: the output
catalog has the input's length, and at every position the four non-stock
fields agree with the input. -/
theorem reconciliar_preserva_datos (ps : List Producto) (ts : List Transaccion) :
    (procesarTransacciones ps ts).1.length = ps.length ∧
      ∀ i, mismosDatos ((procesarTransacciones ps ts).1.getD i productoCero)
        (ps.getD i productoCero) := by
  refine ⟨?_, fun i => ?_⟩
  · unfold procesarTransacciones
    exact fold_length _ ts (ps, [])
  · unfold procesarTransacciones
    exact fold_datos _ ts (ps, []) i

/-- C4: the number of error records equals the number of transactions
satisfying one of the three failure conditions (identifier not found,
sale with insufficient stock, unrecognized kind), each evaluated against
the catalog state current when the transaction is processed; and each
single transaction adds at most one error record. -/
theorem errores_cuenta (ps : List Producto) (ts : List Transaccion) :
    ((procesarTransacciones ps ts).2).length = cuentaFallos (buildIndex ps) ps ts ∧
      ∀ (idx : String → Option Nat) (st : List Producto × List String)
        (t : Transaccion),
        ((aplicarTransaccion idx st t).2).length ≤ st.2.length + 1 := by
  refine ⟨?_, ?_⟩
  · unfold procesarTransacciones
    exact fold_errlen _ ts ps
  · intro idx st t
    obtain ⟨c, e⟩ := st
    dsimp only
    rw [aplicar_errlen idx c e t]
    split_ifs <;> omega

/-- C5: a transaction whose identifier is absent from the catalog yields
exactly one not-found error (naming product id, kind and date), mutates
nothing, and processing continues with the remaining transactions on the
unchanged catalog — whatever the transaction's kind. -/
theorem no_encontrado_correcto (ps : List Producto) (ts : List Transaccion)
    (t : Transaccion) (h : ∀ p ∈ ps, p.ID ≠ t.IDProducto) :
    procesarTransacciones ps (t :: ts) =
      ((procesarTransacciones ps ts).1,
       msgNoEncontrado t :: (procesarTransacciones ps ts).2) := by
  have hnone : buildIndex ps t.IDProducto = none :=
    (buildIndex_eq_none_iff ps t.IDProducto).mpr h
  unfold procesarTransacciones
  rw [List.foldl_cons, aplicar_no_encontrado (buildIndex ps) (ps, []) t hnone,
    fold_errs (buildIndex ps) ts]
  simp

theorem no_encontrado_correcto_witness :
    prodA.ID ≠ trNoExiste.IDProducto ∧
      procesarTransacciones [prodA] [trNoExiste] =
        ((procesarTransacciones [prodA] []).1,
         msgNoEncontrado trNoExiste :: (procesarTransacciones [prodA] []).2) :=
  ⟨by decide, no_encontrado_correcto [prodA] [] trNoExiste (by decide)⟩

/-- C6: a transaction on a present identifier whose kind is none of
"VENTA", "COMPRA", "DEVOLUCION" yields exactly one unknown-kind error
(naming kind, product id and date) and leaves the whole catalog
unchanged; processing continues with the remaining transactions. -/
theorem tipo_desconocido_correcto (ps : List Producto) (ts : List Transaccion)
    (t : Transaccion) (pos : Nat)
    (hpos : buildIndex ps t.IDProducto = some pos)
    (h1 : t.Tipo ≠ "VENTA") (h2 : t.Tipo ≠ "COMPRA")
    (h3 : t.Tipo ≠ "DEVOLUCION") :
    procesarTransacciones ps (t :: ts) =
      ((procesarTransacciones ps ts).1,
       msgTipoDesconocido t :: (procesarTransacciones ps ts).2) := by
  unfold procesarTransacciones
  rw [List.foldl_cons,
    aplicar_desconocido (buildIndex ps) (ps, []) t pos hpos h1 h2 h3,
    fold_errs (buildIndex ps) ts]
  simp

theorem tipo_desconocido_correcto_witness :
    trAjuste.Tipo ≠ "VENTA" ∧
      procesarTransacciones [prodA] [trAjuste] =
        ((procesarTransacciones [prodA] []).1,
         msgTipoDesconocido trAjuste :: (procesarTransacciones [prodA] []).2) :=
  ⟨by decide,
    tipo_desconocido_correcto [prodA] [] trAjuste 0 (by decide) (by decide)
      (by decide) (by decide)⟩

/-- C7: a purchase or return on a present identifier adds its quantity to
the product's stock, emits no error, and the two kinds have identical
catalog effect. -/
theorem compra_devolucion_suman (ps : List Producto) (t : Transaccion)
    (pos : Nat) (hpos : buildIndex ps t.IDProducto = some pos)
    (hk : t.Tipo = "COMPRA" ∨ t.Tipo = "DEVOLUCION") :
    procesarTransacciones ps [t] =
      (ps.set pos
        { ps.getD pos productoCero with
            Stock := (ps.getD pos productoCero).Stock + t.Cantidad },
       []) ∧
    procesarTransacciones ps [{ t with Tipo := "COMPRA" }] =
      procesarTransacciones ps [{ t with Tipo := "DEVOLUCION" }] := by
  constructor
  · unfold procesarTransacciones
    rw [List.foldl_cons, List.foldl_nil,
      aplicar_suma (buildIndex ps) (ps, []) t pos hpos hk]
  · unfold procesarTransacciones
    simp only [List.foldl_cons, List.foldl_nil]
    rw [aplicar_suma (buildIndex ps) (ps, []) { t with Tipo := "COMPRA" } pos
        hpos (Or.inl rfl),
      aplicar_suma (buildIndex ps) (ps, []) { t with Tipo := "DEVOLUCION" } pos
        hpos (Or.inr rfl)]

theorem compra_devolucion_suman_witness :
    (trCompra.Tipo = "COMPRA" ∨ trCompra.Tipo = "DEVOLUCION") ∧
      procesarTransacciones [prodA] [trCompra] =
        ([prodA].set 0
          { [prodA].getD 0 productoCero with
              Stock := ([prodA].getD 0 productoCero).Stock + trCompra.Cantidad },
         []) :=
  ⟨Or.inl rfl,
    (compra_devolucion_suman [prodA] trCompra 0 (by decide) (Or.inl rfl)).1⟩

/-- C8: the low-stock report consists of the two header lines, one line
for exactly each product whose stock is strictly below the threshold (in
catalog order; stock equal to the threshold is not listed), and a
trailing count line showing the number of those products. -/
theorem reporte_bajo_stock_correcto (ps : List Producto) (limite : Int) :
    generarReporteBajoStock ps limite =
      ["ALERTA: PRODUCTOS CON BAJO STOCK", "================================"] ++
        (ps.filter (fun p => decide (p.Stock < limite))).map lineaBajoStock ++
        ["Total de productos con bajo stock: " ++
          toString (ps.filter (fun p => decide (p.Stock < limite))).length] := by
  unfold generarReporteBajoStock
  rw [reporte_foldl limite ps [] 0]
  simp

/-- C9: the identifier index maps every identifier to the position of its
last occurrence in the catalog, so when identifiers are duplicated every
transaction resolves to the last product with that identifier and a run
never mutates a position that a later position shadows. -/
theorem indice_ultima_ocurrencia (ps : List Producto) (ts : List Transaccion)
    (i : Nat) (hdup : hayPosterior ps i) :
    (∀ k, buildIndex ps k = posUltima ps k) ∧
      (procesarTransacciones ps ts).1.getD i productoCero =
        ps.getD i productoCero := by
  refine ⟨fun k => buildIndex_eq_posUltima ps k, ?_⟩
  unfold procesarTransacciones
  apply fold_getD_ne
  intro s pos hpos heq
  subst heq
  obtain ⟨hlt, hid, hlast⟩ := buildIndex_some ps s pos hpos
  obtain ⟨j, hjmem, hij, hjid⟩ := hdup
  exact hlast j hij (List.mem_range.mp hjmem) (by rw [hjid, hid])

theorem indice_ultima_ocurrencia_witness :
    ([prodA, prodDup].getD 1 productoCero).ID =
        ([prodA, prodDup].getD 0 productoCero).ID ∧
      (procesarTransacciones [prodA, prodDup] [trVenta]).1.getD 0 productoCero =
        [prodA, prodDup].getD 0 productoCero :=
  ⟨by decide,
    (indice_ultima_ocurrencia [prodA, prodDup] [trVenta] 0
      ⟨1, by decide, by decide, by decide⟩).2⟩

/-- C10: a purchase or return with negative quantity on a present
identifier succeeds with no error and decreases the product's stock by
the quantity's absolute value — so stock can go negative on this path. -/
theorem compra_negativa (ps : List Producto) (t : Transaccion) (pos : Nat)
    (hpos : buildIndex ps t.IDProducto = some pos)
    (hk : t.Tipo = "COMPRA" ∨ t.Tipo = "DEVOLUCION") (hneg : t.Cantidad < 0) :
    procesarTransacciones ps [t] =
      (ps.set pos
        { ps.getD pos productoCero with
            Stock := (ps.getD pos productoCero).Stock + t.Cantidad },
       []) ∧
    (ps.getD pos productoCero).Stock + t.Cantidad =
      (ps.getD pos productoCero).Stock - (t.Cantidad.natAbs : Int) := by
  refine ⟨?_, ?_⟩
  · unfold procesarTransacciones
    rw [List.foldl_cons, List.foldl_nil,
      aplicar_suma (buildIndex ps) (ps, []) t pos hpos hk]
  · omega

theorem compra_negativa_witness :
    trCompraNeg.Cantidad < 0 ∧
      procesarTransacciones [prodB] [trCompraNeg] =
        ([prodB].set 0
          { [prodB].getD 0 productoCero with
              Stock := ([prodB].getD 0 productoCero).Stock + trCompraNeg.Cantidad },
         []) ∧
      ([prodB].getD 0 productoCero).Stock + trCompraNeg.Cantidad < 0 :=
  ⟨by decide,
    (compra_negativa [prodB] trCompraNeg 0 (by decide) (Or.inl rfl) (by decide)).1,
    by decide⟩
